import Mathlib

/-!
Verification of the SecAuditAI core against its specification.

The definitions below are a shallow embedding of the Python sources:
`secauditai/utils.py` (risk scoring), `secauditai/core/rules.py` (rule
engine), `secauditai/core/app.py` with `secauditai/scanners/*` (the
orchestrator and its stub cloud scanners), and
`secauditai/plugins/scanners/{sbom_scanner,azure_scanner}.py` (scanner
failure semantics).  Python dicts are modelled as insertion-ordered
association lists, raising is modelled with `Except`, and Python floats
are modelled with exact rationals `ℚ`.
-/

namespace SecAuditAI

/-! ### Finding model

A finding, as consumed by `calculate_risk_score` and as produced by the
scanners, is a Python dict.  We model the fields the embedded code
touches; `none` models an absent key (and, for `resource`, also a Python
`None` value, which the sbom scanner can store there). -/

structure Finding where
  check_id : Option String
  resource : Option String
  status : Option String
  message : Option String
  severity : Option String
deriving DecidableEq, Repr

/-- A finding that only carries a severity, as `calculate_risk_score`
inputs usually do; the other keys are absent. -/
def sevFinding (sev : String) : Finding :=
  ⟨none, none, none, none, some sev⟩

/-! ### Risk scoring (`utils.calculate_risk_score`) -/

/-- The weight table `weights = {"high": 3, "medium": 2, "low": 1}`. -/
def weightsTable : List (String × Nat) :=
  [("high", 3), ("medium", 2), ("low", 1)]

/-- Python `str.lower()` (character-wise lowercasing). -/
def pyLower (s : String) : String :=
  ⟨s.data.map Char.toLower⟩

/-- The per-finding weight: `weights.get(finding.get("severity", "").lower(), 0)`. -/
def sevWeight (f : Finding) : Nat :=
  ((weightsTable.lookup (pyLower (f.severity.getD ""))).getD 0)

/-- Loop body of `calculate_risk_score`: `total += weights.get(severity, 0)`
and `count += 1`, on the accumulator `(total, count)`. -/
def riskAccum (acc : Nat × Nat) (f : Finding) : Nat × Nat :=
  (acc.1 + sevWeight f, acc.2 + 1)

/-- Python `round(x, 2)` on exact rationals: round to two decimal places.
(Mathlib's `round` rounds half away from zero where Python rounds half to
even; the values compared in this development are never at a tie.) -/
def pyRound2 (x : ℚ) : ℚ :=
  ((round (x * 100) : ℤ) : ℚ) / 100

/-- `utils.calculate_risk_score`: accumulate weighted severities, then
`0.0` for an empty input, else `round(min(total / (3 * count), 1.0) * 100, 2)`. -/
def calculate_risk_score (findings : List Finding) : ℚ :=
  let tc := findings.foldl riskAccum (0, 0)
  if tc.2 = 0 then 0
  else pyRound2 (min ((tc.1 : ℚ) / (3 * (tc.2 : ℚ))) 1 * 100)

/-- The severity weight exactly as the claim states it: 3/2/1 for the
canonical lowercase names, 0 for everything else. -/
def claimWeight (sev : String) : Nat :=
  if sev = "high" then 3
  else if sev = "medium" then 2
  else if sev = "low" then 1
  else 0

/-- The severity enum of the specification's data model. -/
def canonicalSeverities : List String :=
  ["low", "medium", "high", "critical", "unknown"]

/-- Proportion of findings whose severity is 'high' or 'critical', the
quantity the monotonicity claim is stated over. -/
def hcProportion (findings : List Finding) : ℚ :=
  ((findings.countP
      (fun f => (f.severity.getD "") = "high" ∨ (f.severity.getD "") = "critical") : ℚ)) /
    (findings.length : ℚ)

/-! ### Python values and dicts

Rule metadata, scan-result dicts and condition inputs are Python values;
we model the JSON-like fragment the embedded code manipulates.  A Python
dict is an insertion-ordered association list. -/

inductive JVal where
  | none : JVal
  | bool : Bool → JVal
  | str : String → JVal
  | num : Int → JVal
  | list : List JVal → JVal
  | dict : List (String × JVal) → JVal

/-- A Python dict with string keys. -/
abbrev PyDict (α : Type) : Type := List (String × α)

/-- Python `d[k] = v`: replace the value at the first occurrence of `k`,
or append at the end when `k` is absent. -/
def dictSet {α : Type} : PyDict α → String → α → PyDict α
  | [], k, v => [(k, v)]
  | (k', v') :: rest, k, v =>
      if k' = k then (k, v) :: rest else (k', v') :: dictSet rest k v

/-- Python `d.update(other)`: `d[k] = v` for every pair of `other` in order. -/
def dictUpdate {α : Type} (d other : PyDict α) : PyDict α :=
  other.foldl (fun acc kv => dictSet acc kv.1 kv.2) d

/-- Python truthiness of an optional string (`None` and `""` are falsy). -/
def pyTruthyStr (s : Option String) : Bool :=
  match s with
  | Option.none => false
  | Option.some s => s ≠ ""

/-- Python truthiness of a value. -/
def pyTruthy (v : JVal) : Bool :=
  match v with
  | .none => false
  | .bool b => b
  | .str s => s ≠ ""
  | .num n => n ≠ 0
  | .list l => !l.isEmpty
  | .dict d => !d.isEmpty

/-- Python `v == s` for a string literal `s`: true exactly on the equal
string (no exception on other value shapes). -/
def pyEqStr (v : JVal) (s : String) : Bool :=
  match v with
  | .str t => t = s
  | _ => false

/-- Python `v == False`, as used by the default iac rule (`False == 0`
also holds in Python). -/
def pyEqFalse (v : JVal) : Bool :=
  match v with
  | .bool b => !b
  | .num n => n = 0
  | _ => false

/-- Python `d[k]` on a dict: `KeyError` when the key is absent. -/
def pyGetItem (d : PyDict JVal) (k : String) : Except String JVal :=
  match d.lookup k with
  | Option.some v => .ok v
  | Option.none => .error "KeyError"

/-- Python `v.values()`: the dict's values; `AttributeError` when `v` is
not a dict. -/
def pyValues (v : JVal) : Except String (List JVal) :=
  match v with
  | .dict d => .ok (d.map (fun kv => kv.2))
  | _ => .error "AttributeError"

/-- Python `v.get(k)` on a nested value: `None` default; `AttributeError`
when `v` is not a dict. -/
def pyDictGet (v : JVal) (k : String) : Except String JVal :=
  match v with
  | .dict d => .ok ((d.lookup k).getD .none)
  | _ => .error "AttributeError"

/-- Python `for x in v`: iterating a list yields its elements, iterating a
dict yields its keys; other shapes used by the default rules raise
`TypeError`. -/
def pyIter (v : JVal) : Except String (List JVal) :=
  match v with
  | .list l => .ok l
  | .dict d => .ok (d.map (fun kv => JVal.str kv.1))
  | _ => .error "TypeError"

/-- Python `any(p(x) for x in l)`: lazy, and exceptions from `p`
propagate. -/
def pyAny (l : List JVal) (p : JVal → Except String Bool) : Except String Bool :=
  match l with
  | [] => .ok false
  | x :: xs => do
      if (← p x) then pure true else pyAny xs p

/-! ### Rule engine (`core/rules.py`)

A rule is a Python dict; its metadata entries are `JVal`s and its
`"condition"` entry, when it is one of the built-in executable
conditions, is a closure from the results dict to a truthiness value
(raising modelled by `Except`).  The two are kept in separate components
because a closure is not a `JVal`; the dict's key set is their union. -/

/-- An executable rule condition: a Python callable over the results
dict. -/
def Cond : Type := PyDict JVal → Except String Bool

/-- A rule dict: metadata fields plus the optional callable stored under
the `"condition"` key. -/
structure Rule where
  fields : PyDict JVal
  cond : Option Cond

/-- Lookup of a metadata entry of a rule dict. -/
def Rule.item? (r : Rule) (k : String) : Option JVal :=
  r.fields.lookup k

/-- The key set of the rule dict: metadata keys plus `"condition"` when a
callable is stored there. -/
def Rule.keys (r : Rule) : List String :=
  r.fields.map (fun kv => kv.1) ++ (match r.cond with
    | Option.some _ => ["condition"]
    | Option.none => [])

/-- The rule-engine store `self.rules : Dict[str, List[Dict]]`. -/
abbrev RuleStore : Type := PyDict (List Rule)

/-- Condition of the default rule `insecure_headers`:
`any(not header.get("present") or not header.get("secure") for header in
results["headers"].values())`. -/
def insecureHeadersCond : Cond := fun results => do
  let hs ← pyGetItem results "headers"
  let vs ← pyValues hs
  pyAny vs (fun header => do
    let p ← pyDictGet header "present"
    if !pyTruthy p then pure true
    else do
      let s ← pyDictGet header "secure"
      pure (!pyTruthy s))

/-- Condition of the default rule `rate_limit_missing`:
`any(not limit.get("blocked") for limit in results["rate_limiting"].values())`. -/
def rateLimitCond : Cond := fun results => do
  let rl ← pyGetItem results "rate_limiting"
  let vs ← pyValues rl
  pyAny vs (fun limit => do
    let b ← pyDictGet limit "blocked"
    pure (!pyTruthy b))

/-- Condition of the default rule `root_container`:
`results.get("user") == "root"`. -/
def rootContainerCond : Cond := fun results =>
  .ok (pyEqStr ((results.lookup "user").getD .none) "root")

/-- Condition of the default rule `insecure_storage`:
`any(storage.get("encrypted") == False for storage in results.get("storage", []))`. -/
def insecureStorageCond : Cond := fun results => do
  let stor ← pyIter ((results.lookup "storage").getD (.list []))
  pyAny stor (fun storage => do
    let e ← pyDictGet storage "encrypted"
    pure (pyEqFalse e))

/-- The default `"api"` rules. -/
def defaultApiRules : List Rule :=
  [⟨[("name", .str "insecure_headers"),
     ("description", .str "Check for missing or insecure security headers"),
     ("severity", .str "high")], Option.some insecureHeadersCond⟩,
   ⟨[("name", .str "rate_limit_missing"),
     ("description", .str "Check for missing rate limiting"),
     ("severity", .str "medium")], Option.some rateLimitCond⟩]

/-- The default `"container"` rules. -/
def defaultContainerRules : List Rule :=
  [⟨[("name", .str "root_container"),
     ("description", .str "Check for containers running as root"),
     ("severity", .str "high")], Option.some rootContainerCond⟩]

/-- The default `"iac"` rules. -/
def defaultIacRules : List Rule :=
  [⟨[("name", .str "insecure_storage"),
     ("description", .str "Check for insecure storage configurations"),
     ("severity", .str "high")], Option.some insecureStorageCond⟩]

/-- The `default_rules` dict of `load_default_rules`. -/
def defaultRules : RuleStore :=
  [("api", defaultApiRules),
   ("container", defaultContainerRules),
   ("iac", defaultIacRules)]

/-- `RuleEngine.load_default_rules`: `self.rules.update(default_rules)`. -/
def load_default_rules (st : RuleStore) : RuleStore :=
  dictUpdate st defaultRules

/-- The store of a freshly constructed `RuleEngine` (`__init__` starts
from `{}` and loads the default rules). -/
def initialRuleStore : RuleStore :=
  load_default_rules []

/-- `RuleEngine.add_rule`: create the category if absent, then append. -/
def add_rule (st : RuleStore) (category : String) (rule : Rule) : RuleStore :=
  match st.lookup category with
  | Option.none => dictSet st category [rule]
  | Option.some rules => dictSet st category (rules ++ [rule])

/-- `RuleEngine.get_rules_for_category`: `self.rules.get(category, [])`. -/
def get_rules_for_category (st : RuleStore) (category : String) : List Rule :=
  (st.lookup category).getD []

/-- `RuleEngine.get_categories`: `list(self.rules.keys())`. -/
def get_categories (st : RuleStore) : List String :=
  st.map (fun kv => kv.1)

/-- `RuleEngine.validate_rule`: the required fields are `name`,
`description`, `severity` and `condition` (note: no `id`). -/
def validate_rule (r : Rule) : Bool :=
  ["name", "description", "severity", "condition"].all
    (fun f => r.keys.contains f)

/-- The list comprehension of `remove_rule`:
`[rule for rule in rules if rule["name"] != rule_name]`; a rule without a
`"name"` key makes the comprehension raise `KeyError`. -/
def removeFilter (rules : List Rule) (ruleName : String) : Except String (List Rule) :=
  match rules with
  | [] => .ok []
  | r :: rest =>
      match r.item? "name" with
      | Option.none => .error "KeyError"
      | Option.some v => do
          let rest' ← removeFilter rest ruleName
          pure (if pyEqStr v ruleName then rest' else r :: rest')

/-- `RuleEngine.remove_rule`: rebuild the category's list without the
rules whose `"name"` equals `rule_name`; no-op when the category is
absent. -/
def remove_rule (st : RuleStore) (category ruleName : String) :
    Except String RuleStore :=
  match st.lookup category with
  | Option.none => .ok st
  | Option.some rules => do
      let rules' ← removeFilter rules ruleName
      pure (dictSet st category rules')

/-- Evaluation of `rule["condition"](results)`: `KeyError` when the key
is absent, `TypeError` when the stored value is not callable, otherwise
the callable's outcome. -/
def evalRuleCond (r : Rule) (results : PyDict JVal) : Except String Bool :=
  match r.cond with
  | Option.some f => f results
  | Option.none =>
      match r.item? "condition" with
      | Option.some _ => .error "TypeError"
      | Option.none => .error "KeyError"

/-- A violation dict `{"name": ..., "description": ..., "severity": ...}`. -/
structure Violation where
  name : JVal
  description : JVal
  severity : JVal

/-- The `try` block body of `apply_rules` for one rule: evaluate the
condition and, when truthy, build the violation dict (whose item lookups
can themselves raise `KeyError`). -/
def tryRule (r : Rule) (results : PyDict JVal) : Except String (Option Violation) := do
  let b ← evalRuleCond r results
  if b then
    match r.item? "name", r.item? "description", r.item? "severity" with
    | Option.some n, Option.some d, Option.some s =>
        pure (Option.some ⟨n, d, s⟩)
    | _, _, _ => .error "KeyError"
  else pure Option.none

/-- The rule loop of `apply_rules`: an exception inside the `try` block is
caught and logged — but the log line itself reads `rule['name']`, so a
rule with no `"name"` key makes the handler re-raise. -/
def applyRulesLoop (rules : List Rule) (results : PyDict JVal) :
    Except String (List Violation) :=
  match rules with
  | [] => .ok []
  | r :: rest =>
      match tryRule r results with
      | .ok (Option.some v) => do
          let vs ← applyRulesLoop rest results
          pure (v :: vs)
      | .ok Option.none => applyRulesLoop rest results
      | .error _ =>
          match r.item? "name" with
          | Option.some _ => applyRulesLoop rest results
          | Option.none => .error "KeyError"

/-- `RuleEngine.apply_rules`: `[]` for an unknown category, else the rule
loop. -/
def apply_rules (st : RuleStore) (category : String) (results : PyDict JVal) :
    Except String (List Violation) :=
  match st.lookup category with
  | Option.none => .ok []
  | Option.some rules => applyRulesLoop rules results

/-- `RuleEngine.clear_rules`: with a truthy category, empty that
category's list; otherwise clear the whole store and reseed the default
rules. -/
def clear_rules (st : RuleStore) (category : Option String) : RuleStore :=
  if pyTruthyStr category then dictSet st (category.getD "") []
  else load_default_rules []

/-- One exported rule: the serializable entries of the rule dict. -/
abbrev SerializedRule : Type := PyDict JVal

/-- JSON/YAML serialization of one rule dict: a stored callable condition
is not serializable (`json.dump` raises `TypeError`, `yaml.dump` raises
`RepresenterError`). -/
def serializeRule (r : Rule) : Except String SerializedRule :=
  match r.cond with
  | Option.some _ => .error "TypeError"
  | Option.none => .ok r.fields

/-- `RuleEngine.export_rules`: serialize the whole store; any rule with a
callable condition makes the dump raise. -/
def export_rules (st : RuleStore) : Except String (PyDict (List SerializedRule)) :=
  st.mapM (fun crs => do
    let srs ← crs.2.mapM serializeRule
    pure (crs.1, srs))

/-- A rule parsed back from a JSON/YAML file: plain data, no callable. -/
def deserializeRule (fields : SerializedRule) : Rule :=
  ⟨fields, Option.none⟩

/-- `RuleEngine.load_rules_from_file`, applied to already-parsed file
data: `self.rules.update(rules)`. -/
def load_rules_data (st : RuleStore) (data : PyDict (List SerializedRule)) :
    RuleStore :=
  dictUpdate st (data.map (fun crs => (crs.1, crs.2.map deserializeRule)))

/-! ### Scanner failure semantics
(`plugins/scanners/sbom_scanner.py`, `plugins/scanners/azure_scanner.py`)

The external collaborators (syft, the NVD/registry HTTP calls, the Azure
SDK clients) are modelled as oracle parameters: the outcome of
`_generate_sbom` (which catches its own exceptions and turns them into an
error dict) and the combined outcome of the check phase, whose exceptions
reach the scanner's outer `try`. -/

/-- A scan summary dict `{"total", "failed", "passed", "error"}`. -/
structure Summary where
  total : Nat
  failed : Nat
  passed : Nat
  errors : Nat
deriving DecidableEq, Repr

/-- A scan-result dict `{"scanner", "target", "findings", "summary"}`. -/
structure ScanResult where
  scanner : String
  target : String
  findings : List Finding
  summary : Summary
deriving DecidableEq, Repr

/-- The inline summary computation shared by the scanners' success
branches. -/
def computeSummary (findings : List Finding) : Summary :=
  ⟨findings.length,
   (findings.filter (fun f => f.status = Option.some "failed")).length,
   (findings.filter (fun f => f.status = Option.some "passed")).length,
   (findings.filter (fun f => f.status = Option.some "error")).length⟩

/-- The sbom scanner's synthetic error result: one `sbom-000` finding
with `status=error` and a `{1, 0, 0, 1}` summary. -/
def sbomErrorResult (target : String) (path : Option String) (msg : String) :
    ScanResult :=
  ⟨"sbom", target,
   [⟨Option.some "sbom-000", path, Option.some "error", Option.some msg,
     Option.none⟩],
   ⟨1, 0, 0, 1⟩⟩

/-- `SBOMScanner.scan`.  `pathExists` is the `os.path.exists` oracle,
`genError` the error message `_generate_sbom` returned (if any), and
`checks` the outcome of running the three check phases on the generated
sbom.  Every failure mode yields the synthetic error result; the function
is total, so `scan` never raises. -/
def sbomScan (target : String) (path : Option String)
    (pathExists : String → Bool) (genError : Option String)
    (checks : Except String (List Finding)) : ScanResult :=
  if !pyTruthyStr path || !pathExists (path.getD "") then
    sbomErrorResult target path "Invalid path provided"
  else
    match genError with
    | Option.some e => sbomErrorResult target path ("Error generating SBOM: " ++ e)
    | Option.none =>
        match checks with
        | .error e => sbomErrorResult target path ("Error scanning SBOM: " ++ e)
        | .ok findings => ⟨"sbom", target, findings, computeSummary findings⟩

/-- The azure scanner's synthetic error result: one `azure-000` finding
with `status=error` and a `{1, 0, 0, 1}` summary. -/
def azureErrorResult (target resource msg : String) : ScanResult :=
  ⟨"azure", target,
   [⟨Option.some "azure-000", Option.some resource, Option.some "error",
     Option.some msg, Option.none⟩],
   ⟨1, 0, 0, 1⟩⟩

/-- `AzureScanner.scan`.  `checks` is the combined outcome of the client
construction and the three check phases inside the `try` block.  Every
failure mode yields the synthetic error result; the function is total, so
`scan` never raises. -/
def azureScan (target : String) (subscription resourceGroup : Option String)
    (checks : Except String (List Finding)) : ScanResult :=
  if !pyTruthyStr subscription || !pyTruthyStr resourceGroup then
    azureErrorResult target "Azure Configuration"
      "Missing subscription ID or resource group"
  else
    match checks with
    | .error e => azureErrorResult target "Azure Scan" ("Error during Azure scan: " ++ e)
    | .ok findings => ⟨"azure", target, findings, computeSummary findings⟩

/-! ### Orchestrator (`core/app.py` with the stub scanners of
`secauditai/scanners/`)

`scan_multi_cloud` is embedded for the call shape the claim fixes
(`rules=None`, `services=None`, so the two trailing `if` blocks are
skipped). -/

/-- The stub cloud scanners' `scan`:
`{"provider": <name>, "config": (config or {}) | kwargs, "findings": []}`
(the orchestrator passes no kwargs). -/
def stubScan (provider : String) (config : PyDict JVal) : JVal :=
  .dict [("provider", .str provider), ("config", .dict config),
         ("findings", .list [])]

/-- The keys of `self.cloud_scanners` (`aws`, `azure`, `gcp`). -/
def cloudScannerNames : List String := ["aws", "azure", "gcp"]

/-- The provider loop of `scan_multi_cloud`: look the scanner up, raise
`ValueError` for an unknown provider, else store the scan of that
provider's config slice. -/
def scanMultiCloudLoop (providers : List String)
    (config : PyDict (PyDict JVal)) (acc : PyDict JVal) :
    Except String (PyDict JVal) :=
  match providers with
  | [] => .ok acc
  | p :: rest =>
      if cloudScannerNames.contains p then
        scanMultiCloudLoop rest config
          (dictSet acc p (stubScan p ((config.lookup p).getD [])))
      else .error ("Unsupported provider: " ++ p)

/-- `SecAuditAI.scan_multi_cloud` with `rules=None`, `services=None`. -/
def scan_multi_cloud (providers : List String)
    (config : PyDict (PyDict JVal)) : Except String (PyDict JVal) :=
  scanMultiCloudLoop providers config []

/-- A value is a canonical ScanResult dict per the specification's data
model: the keys `scanner`, `target`, `findings` and `summary` are all
present. -/
def isValidScanResult (v : JVal) : Bool :=
  match v with
  | .dict d => ["scanner", "target", "findings", "summary"].all
      (fun k => (d.lookup k).isSome)
  | _ => false

/-! ### Derived notions used in the claim statements -/

/-- Whether the rule dict's entry at key `k` is the string `v`. -/
def ruleFieldIs (r : Rule) (k v : String) : Bool :=
  match r.item? k with
  | Option.some w => pyEqStr w v
  | Option.none => false

/-- How many rules of a list carry the given `"name"`. -/
def countNamed (rules : List Rule) (n : String) : Nat :=
  rules.countP (fun r => ruleFieldIs r "name" n)

/-- A rule dict carrying the three metadata entries `apply_rules` reads
when building a violation. -/
def hasMeta (r : Rule) : Bool :=
  (r.item? "name").isSome && (r.item? "description").isSome &&
    (r.item? "severity").isSome

/-- The violation dict `apply_rules` appends for a matched rule. -/
def mkViolation (r : Rule) : Violation :=
  ⟨(r.item? "name").getD .none, (r.item? "description").getD .none,
   (r.item? "severity").getD .none⟩

/-- A first rule named (and with id) `dup`. -/
def dupRuleA : Rule :=
  ⟨[("id", .str "dup"), ("name", .str "dup"),
    ("description", .str "first version"), ("severity", .str "low")],
   Option.none⟩

/-- A second rule with the same name (and id) `dup`. -/
def dupRuleB : Rule :=
  ⟨[("id", .str "dup"), ("name", .str "dup"),
    ("description", .str "second version"), ("severity", .str "high")],
   Option.none⟩

/-- A rule whose `"id"` and `"name"` entries differ. -/
def idOnlyRule : Rule :=
  ⟨[("id", .str "r-1"), ("name", .str "other"),
    ("description", .str "d"), ("severity", .str "low")],
   Option.none⟩

/-- A metadata-only rule (no executable condition), as produced by
`load_rules_from_file`. -/
def condFreeRule : Rule :=
  ⟨[("name", .str "n1"), ("description", .str "d1"),
    ("severity", .str "low"), ("condition", .str "metadata only")],
   Option.none⟩

/-! ## Helper lemmas -/

theorem foldl_riskAccum (F : List Finding) (a b : Nat) :
    F.foldl riskAccum (a, b) = (a + (F.map sevWeight).sum, b + F.length) := by
  induction F generalizing a b with
  | nil => simp
  | cons f F ih =>
      simp only [List.foldl_cons, riskAccum, ih, List.map_cons, List.sum_cons,
        List.length_cons]
      rw [Prod.mk.injEq]
      constructor <;> omega

theorem calculate_risk_score_eq (F : List Finding) :
    calculate_risk_score F =
      if F.length = 0 then 0
      else pyRound2 (min (((F.map sevWeight).sum : ℚ) / (3 * (F.length : ℚ))) 1 * 100) := by
  unfold calculate_risk_score
  rw [foldl_riskAccum]
  simp

theorem sevWeight_canonical :
    ∀ s ∈ canonicalSeverities,
      ∀ f : Finding, f.severity.getD "" = s → sevWeight f = claimWeight s := by
  intro s hs f hf
  unfold sevWeight claimWeight
  rw [hf]
  fin_cases hs <;> rfl

theorem pyRound2_mono {x y : ℚ} (h : x ≤ y) : pyRound2 x ≤ pyRound2 y := by
  unfold pyRound2
  have hr : round (x * 100) ≤ round (y * 100) := by
    rw [round_eq, round_eq]
    exact Int.floor_le_floor (by linarith)
  have hc : ((round (x * 100) : ℤ) : ℚ) ≤ ((round (y * 100) : ℤ) : ℚ) := by
    exact_mod_cast hr
  linarith

theorem sum_sevWeight_eq (F : List Finding)
    (h : ∀ f ∈ F, f.severity.getD "" ∈ canonicalSeverities) :
    (((F.map sevWeight).sum : ℕ) : ℚ) =
      (F.map (fun f => (claimWeight (f.severity.getD "") : ℚ))).sum := by
  induction F with
  | nil => simp
  | cons f F ih =>
      have hf := h f (List.mem_cons_self f F)
      have hw : sevWeight f = claimWeight (f.severity.getD "") :=
        sevWeight_canonical _ hf f rfl
      simp [List.map_cons, List.sum_cons, Nat.cast_add, hw,
        ih (fun g hg => h g (List.mem_cons_of_mem f hg))]

/-! ## Claim C1 -/

/-- C1: for every finding sequence whose severities are drawn from the
data model's severity enum, `calculate_risk_score` returns
`round(min(1, Σ weight(severity) / (3 * len(F))) * 100, 2)` with the
claimed weights (high 3, medium 2, low 1, everything else — including
critical and unknown — 0), and exactly `0.0` for the empty sequence. -/
theorem calculate_risk_score_matches_formula (F : List Finding)
    (h : ∀ f ∈ F, f.severity.getD "" ∈ canonicalSeverities) :
    calculate_risk_score F =
      if F.length = 0 then 0
      else pyRound2 (min 1
        ((F.map (fun f => (claimWeight (f.severity.getD "") : ℚ))).sum /
          (3 * (F.length : ℚ))) * 100) := by
  rw [calculate_risk_score_eq, sum_sevWeight_eq F h, min_comm]

/-- Witness for C1 at a concrete finding list. -/
theorem calculate_risk_score_matches_formula_witness :
    (∀ f ∈ [sevFinding "high", sevFinding "medium", sevFinding "critical"],
       f.severity.getD "" ∈ canonicalSeverities) ∧
    calculate_risk_score
        [sevFinding "high", sevFinding "medium", sevFinding "critical"] =
      if ([sevFinding "high", sevFinding "medium",
           sevFinding "critical"] : List Finding).length = 0 then 0
      else pyRound2 (min 1
        (([sevFinding "high", sevFinding "medium", sevFinding "critical"].map
            (fun f => (claimWeight (f.severity.getD "") : ℚ))).sum /
          (3 * (([sevFinding "high", sevFinding "medium",
                  sevFinding "critical"] : List Finding).length : ℚ))) * 100) :=
  ⟨by decide, calculate_risk_score_matches_formula _ (by decide)⟩

/-! ## Claim C5 -/

theorem pyRound2_zero : pyRound2 0 = 0 := by
  simp [pyRound2]

theorem pyRound2_hundred : pyRound2 100 = 100 := by
  simp only [pyRound2]
  rw [show ((100 : ℚ) * 100) = 10000 by norm_num, round_eq]
  norm_num

theorem pyRound2_bounds {x : ℚ} (h0 : 0 ≤ x) (h1 : x ≤ 100) :
    0 ≤ pyRound2 x ∧ pyRound2 x ≤ 100 :=
  ⟨pyRound2_zero ▸ pyRound2_mono h0, pyRound2_hundred ▸ pyRound2_mono h1⟩

theorem sum_sevWeight_le {F G : List Finding}
    (h : List.Forall₂ (fun f g => sevWeight f ≤ sevWeight g) F G) :
    (F.map sevWeight).sum ≤ (G.map sevWeight).sum := by
  induction h with
  | nil => exact le_refl 0
  | cons hfg _ ih =>
      simp only [List.map_cons, List.sum_cons]
      omega

/-- C5 counterexample: the claim's monotonicity fails as stated.  The
sequence `[critical]` has a high-or-critical proportion at least that of
`[high]`, yet its risk score is strictly smaller (critical findings carry
weight 0). -/
theorem risk_score_hc_proportion_not_monotone :
    hcProportion [sevFinding "critical"] ≥ hcProportion [sevFinding "high"] ∧
    calculate_risk_score [sevFinding "critical"] <
      calculate_risk_score [sevFinding "high"] := by
  have hwc : sevWeight (sevFinding "critical") = 0 := by decide
  have hwh : sevWeight (sevFinding "high") = 3 := by decide
  constructor
  · simp [hcProportion, sevFinding]
  · have h1 : calculate_risk_score [sevFinding "critical"] = 0 := by
      rw [calculate_risk_score_eq]
      simp only [List.length_singleton, List.map_cons, List.map_nil,
        List.sum_cons, List.sum_nil, hwc]
      rw [if_neg (by norm_num)]
      rw [show ((((0 + 0 : ℕ) : ℚ)) / (3 * ((1 : ℕ) : ℚ))) = 0 by norm_num]
      rw [min_eq_left (by norm_num), zero_mul, pyRound2_zero]
    have h2 : calculate_risk_score [sevFinding "high"] = 100 := by
      rw [calculate_risk_score_eq]
      simp only [List.length_singleton, List.map_cons, List.map_nil,
        List.sum_cons, List.sum_nil, hwh]
      rw [if_neg (by norm_num)]
      rw [show ((((3 + 0 : ℕ) : ℚ)) / (3 * ((1 : ℕ) : ℚ))) = 1 by norm_num]
      rw [min_self, one_mul, pyRound2_hundred]
    rw [h1, h2]
    norm_num

/-- C5 (amended): the risk score is bounded to `[0, 100]`, and it is
monotonic non-decreasing under pointwise severity-weight escalation: for
two finding sequences of equal length where every finding of the second
carries at least the severity weight of the corresponding finding of the
first (e.g. severities raised to 'high'), the score of the second is
greater or equal.  (Monotonicity in the proportion of 'critical' findings
fails, because 'critical' carries weight 0.) -/
theorem risk_score_bounds_and_monotone :
    (∀ F, 0 ≤ calculate_risk_score F ∧ calculate_risk_score F ≤ 100) ∧
    (∀ F G, List.Forall₂ (fun f g => sevWeight f ≤ sevWeight g) F G →
      calculate_risk_score F ≤ calculate_risk_score G) := by
  constructor
  · intro F
    rw [calculate_risk_score_eq]
    by_cases hF : F.length = 0
    · simp [hF]
    · rw [if_neg hF]
      have hN : (0 : ℚ) < (F.length : ℚ) := by
        exact_mod_cast Nat.pos_of_ne_zero hF
      have hq0 : (0 : ℚ) ≤ (((F.map sevWeight).sum : ℕ) : ℚ) / (3 * (F.length : ℚ)) :=
        div_nonneg (by positivity) (by positivity)
      have hx0 : (0 : ℚ) ≤
          min ((((F.map sevWeight).sum : ℕ) : ℚ) / (3 * (F.length : ℚ))) 1 * 100 :=
        mul_nonneg (le_min hq0 zero_le_one) (by norm_num)
      have hx1 :
          min ((((F.map sevWeight).sum : ℕ) : ℚ) / (3 * (F.length : ℚ))) 1 * 100 ≤ 100 := by
        have := min_le_right ((((F.map sevWeight).sum : ℕ) : ℚ) / (3 * (F.length : ℚ))) 1
        nlinarith
      exact pyRound2_bounds hx0 hx1
  · intro F G hFG
    have hlen := hFG.length_eq
    rw [calculate_risk_score_eq, calculate_risk_score_eq, ← hlen]
    by_cases hF : F.length = 0
    · simp [hF]
    · rw [if_neg hF, if_neg hF]
      apply pyRound2_mono
      have hN : (0 : ℚ) < 3 * (F.length : ℚ) := by
        have : (0 : ℚ) < (F.length : ℚ) := by
          exact_mod_cast Nat.pos_of_ne_zero hF
        linarith
      have hsum : (((F.map sevWeight).sum : ℕ) : ℚ) ≤ (((G.map sevWeight).sum : ℕ) : ℚ) := by
        exact_mod_cast sum_sevWeight_le hFG
      have hdiv : (((F.map sevWeight).sum : ℕ) : ℚ) / (3 * (F.length : ℚ)) ≤
          (((G.map sevWeight).sum : ℕ) : ℚ) / (3 * (F.length : ℚ)) := by
        gcongr
      exact mul_le_mul_of_nonneg_right (min_le_min hdiv le_rfl) (by norm_num)

/-- Witness for C5 at concrete finding lists. -/
theorem risk_score_bounds_and_monotone_witness :
    List.Forall₂ (fun f g => sevWeight f ≤ sevWeight g)
      [sevFinding "low"] [sevFinding "high"] ∧
    calculate_risk_score [sevFinding "low"] ≤
      calculate_risk_score [sevFinding "high"] := by
  have hf : List.Forall₂ (fun f g => sevWeight f ≤ sevWeight g)
      [sevFinding "low"] [sevFinding "high"] :=
    List.Forall₂.cons (by decide) List.Forall₂.nil
  exact ⟨hf, risk_score_bounds_and_monotone.2 _ _ hf⟩

/-! ## Dict lemmas -/

theorem lookup_cons_eq_if {α : Type} (k q : String) (v : α) (es : PyDict α) :
    List.lookup q ((k, v) :: es) = if q = k then Option.some v else List.lookup q es := by
  rw [List.lookup]
  by_cases h : q = k
  · simp [h]
  · simp [h, beq_false_of_ne h]

theorem lookup_dictSet {α : Type} (d : PyDict α) (k : String) (v : α) (q : String) :
    (dictSet d k v).lookup q = if q = k then Option.some v else d.lookup q := by
  induction d with
  | nil => simp [dictSet, lookup_cons_eq_if]
  | cons kv rest ih =>
      obtain ⟨k', v'⟩ := kv
      by_cases hk : k' = k
      · subst hk
        simp only [dictSet, if_pos rfl]
        by_cases hq : q = k'
        · simp [hq, lookup_cons_eq_if]
        · simp [lookup_cons_eq_if, hq]
      · simp only [dictSet, if_neg hk]
        by_cases hq : q = k'
        · subst hq
          have hqk : ¬ q = k := fun h => hk (h ▸ rfl)
          simp [lookup_cons_eq_if, hqk]
        · simp [lookup_cons_eq_if, hq, ih]

theorem dictSet_lookup_self {α : Type} (d : PyDict α) (k : String) (v : α)
    (h : d.lookup k = Option.some v) : dictSet d k v = d := by
  induction d with
  | nil => simp [List.lookup] at h
  | cons kv rest ih =>
      obtain ⟨k', v'⟩ := kv
      rw [lookup_cons_eq_if] at h
      by_cases hk : k = k'
      · rw [if_pos hk] at h
        cases h
        simp [dictSet, hk.symm]
      · rw [if_neg hk] at h
        have hk' : ¬ k' = k := fun hh => hk (hh ▸ rfl)
        simp [dictSet, hk', ih h]

theorem dictUpdate_cons {α : Type} (d : PyDict α) (k : String) (v : α)
    (other : PyDict α) :
    dictUpdate d ((k, v) :: other) = dictUpdate (dictSet d k v) other := rfl

theorem dictUpdate_self_of_lookup {α : Type} (d other : PyDict α)
    (h : ∀ kv ∈ other, d.lookup kv.1 = Option.some kv.2) :
    dictUpdate d other = d := by
  induction other with
  | nil => rfl
  | cons kv rest ih =>
      obtain ⟨k, v⟩ := kv
      rw [dictUpdate_cons,
        dictSet_lookup_self d k v (h (k, v) (List.mem_cons_self _ _))]
      exact ih (fun kv hkv => h kv (List.mem_cons_of_mem _ hkv))

theorem lookup_of_mem_nodup {α : Type} (d : PyDict α)
    (hn : (d.map (fun kv => kv.1)).Nodup) :
    ∀ kv ∈ d, d.lookup kv.1 = Option.some kv.2 := by
  induction d with
  | nil => intro kv hkv; simp at hkv
  | cons hd rest ih =>
      obtain ⟨k, v⟩ := hd
      intro kv hkv
      rcases List.mem_cons.mp hkv with hkv | hkv
      · subst hkv
        simp [lookup_cons_eq_if]
      · rw [List.map_cons, List.nodup_cons] at hn
        have hne : kv.1 ≠ k := by
          intro he
          exact hn.1 (he ▸ List.mem_map_of_mem (fun p => p.1) hkv)
        rw [lookup_cons_eq_if, if_neg hne]
        exact ih hn.2 kv hkv

/-! ## Rule-engine helper lemmas -/

theorem get_rules_add_rule (st : RuleStore) (cat : String) (r : Rule) :
    get_rules_for_category (add_rule st cat r) cat =
      get_rules_for_category st cat ++ [r] := by
  unfold add_rule get_rules_for_category
  cases h : st.lookup cat with
  | none => simp [h, lookup_dictSet]
  | some rules => simp [h, lookup_dictSet]

theorem get_rules_add_rule_other (st : RuleStore) (cat : String) (r : Rule)
    (c : String) (h : c ≠ cat) :
    get_rules_for_category (add_rule st cat r) c = get_rules_for_category st c := by
  unfold add_rule get_rules_for_category
  cases hcat : st.lookup cat <;> simp [lookup_dictSet, h]

/-! ## Claim C6 -/

/-- C6 counterexample: the empty rule dict fails `validate_rule`, yet
`add_rule` does not fail with a `ValidationError` and the store is
changed: the invalid rule is appended to the category. -/
theorem add_rule_accepts_invalid_rule :
    validate_rule ⟨[], Option.none⟩ = false ∧
    (get_rules_for_category
        (add_rule initialRuleStore "api" ⟨[], Option.none⟩) "api").length =
      (get_rules_for_category initialRuleStore "api").length + 1 :=
  ⟨rfl, rfl⟩

/-- C6 (amended): `add_rule` performs no validation at all: for every
store, category and rule — valid or not — it appends the rule to the
category's list (creating the category when absent), leaves every other
category unchanged, and never raises.  `validate_rule` (which requires
name, description, severity and condition, but not id) exists but is not
invoked by `add_rule`. -/
theorem add_rule_appends_without_validation (st : RuleStore) (cat : String)
    (r : Rule) :
    get_rules_for_category (add_rule st cat r) cat =
      get_rules_for_category st cat ++ [r] ∧
    ∀ c, c ≠ cat →
      get_rules_for_category (add_rule st cat r) c = get_rules_for_category st c :=
  ⟨get_rules_add_rule st cat r,
   fun c hc => get_rules_add_rule_other st cat r c hc⟩

/-- Witness for C6 (amended) at a concrete store. -/
theorem add_rule_appends_without_validation_witness :
    (get_rules_for_category
        (add_rule initialRuleStore "container" condFreeRule) "container" =
      get_rules_for_category initialRuleStore "container" ++ [condFreeRule]) ∧
    ("api" : String) ≠ "container" ∧
    get_rules_for_category (add_rule initialRuleStore "container" condFreeRule)
        "api" =
      get_rules_for_category initialRuleStore "api" :=
  ⟨(add_rule_appends_without_validation initialRuleStore "container" condFreeRule).1,
   by decide,
   (add_rule_appends_without_validation initialRuleStore "container"
      condFreeRule).2 "api" (by decide)⟩

/-! ## Claim C7 -/

/-- C7 counterexample: after adding `dupRuleB`, whose id and name `dup`
are already present via `dupRuleA`, the category holds BOTH rules: two
rules carry that name and two carry that id, so the previous rule was not
overwritten. -/
theorem add_rule_duplicate_not_overwritten :
    get_rules_for_category
        (add_rule (add_rule [] "container" dupRuleA) "container" dupRuleB)
        "container" = [dupRuleA, dupRuleB] ∧
    countNamed (get_rules_for_category
        (add_rule (add_rule [] "container" dupRuleA) "container" dupRuleB)
        "container") "dup" = 2 ∧
    (get_rules_for_category
        (add_rule (add_rule [] "container" dupRuleA) "container" dupRuleB)
        "container").countP (fun r => ruleFieldIs r "id" "dup") = 2 :=
  ⟨rfl, rfl, rfl⟩

/-- C7 (amended): adding a rule whose name is already present in the
category does not overwrite: afterwards the category holds one more rule
with that name than before — the old rules are retained and the new rule
is appended at the end. -/
theorem add_rule_duplicate_appends (st : RuleStore) (cat : String) (r : Rule)
    (n : String) (h : ruleFieldIs r "name" n = true) :
    countNamed (get_rules_for_category (add_rule st cat r) cat) n =
      countNamed (get_rules_for_category st cat) n + 1 := by
  rw [countNamed, get_rules_add_rule, List.countP_append]
  simp [countNamed, List.countP_cons, h]

/-- Witness for C7 (amended) at a concrete store. -/
theorem add_rule_duplicate_appends_witness :
    ruleFieldIs dupRuleB "name" "dup" = true ∧
    countNamed (get_rules_for_category
        (add_rule [("container", [dupRuleA])] "container" dupRuleB)
        "container") "dup" =
      countNamed (get_rules_for_category [("container", [dupRuleA])]
        "container") "dup" + 1 :=
  ⟨by decide, add_rule_duplicate_appends _ _ _ _ (by decide)⟩

/-! ## Claim C9 -/

theorem removeFilter_ok (rules : List Rule) (n : String)
    (h : ∀ r ∈ rules, (r.item? "name").isSome) :
    removeFilter rules n =
      .ok (rules.filter (fun r => ! ruleFieldIs r "name" n)) := by
  induction rules with
  | nil => rfl
  | cons r rest ih =>
      have hr := h r (List.mem_cons_self _ _)
      obtain ⟨v, hv⟩ := Option.isSome_iff_exists.mp hr
      rw [removeFilter, hv,
        ih (fun g hg => h g (List.mem_cons_of_mem _ hg))]
      cases hp : pyEqStr v n with
      | true => simp [List.filter_cons, ruleFieldIs, hv, hp]
      | false => simp [List.filter_cons, ruleFieldIs, hv, hp]

/-- C9 counterexample: removal goes by the rule's `"name"` entry, not its
`"id"`: the rule with id `r-1` (named `other`) is not removed by
`remove_rule("c", "r-1")`, while `remove_rule("c", "other")` removes it. -/
theorem remove_rule_ignores_id_field :
    ruleFieldIs idOnlyRule "id" "r-1" = true ∧
    remove_rule [("c", [idOnlyRule])] "c" "r-1" = .ok [("c", [idOnlyRule])] ∧
    remove_rule [("c", [idOnlyRule])] "c" "other" = .ok [("c", [])] :=
  ⟨rfl, rfl, rfl⟩

/-- C9 (amended): `remove_rule` removes by the rule's `"name"` entry (the
engine's rules carry no separate id).  Provided every rule of the category
has a `"name"` key, the call never raises: it removes exactly the rules
whose name equals the argument, leaves other categories unchanged, and is
a no-op — the store comes back unchanged — when the category is absent or
no rule in it carries that name. -/
theorem remove_rule_name_semantics (st : RuleStore) (cat n : String)
    (h : ∀ r ∈ get_rules_for_category st cat, (r.item? "name").isSome) :
    ∃ st', remove_rule st cat n = .ok st' ∧
      get_rules_for_category st' cat =
        (get_rules_for_category st cat).filter
          (fun r => ! ruleFieldIs r "name" n) ∧
      (∀ c, c ≠ cat →
        get_rules_for_category st' c = get_rules_for_category st c) ∧
      ((∀ r ∈ get_rules_for_category st cat, ruleFieldIs r "name" n = false) →
        st' = st) := by
  cases hcat : st.lookup cat with
  | none =>
      refine ⟨st, ?_, ?_, fun c hc => rfl, fun _ => rfl⟩
      · simp only [remove_rule, hcat]
      · unfold get_rules_for_category
        rw [hcat]
        rfl
  | some rules =>
      have hrules : get_rules_for_category st cat = rules := by
        unfold get_rules_for_category
        rw [hcat]
        rfl
      refine ⟨dictSet st cat (rules.filter (fun r => ! ruleFieldIs r "name" n)),
        ?_, ?_, ?_, ?_⟩
      · simp only [remove_rule, hcat, removeFilter_ok rules n (hrules ▸ h)]
        rfl
      · unfold get_rules_for_category
        simp [lookup_dictSet, hcat]
      · intro c hc
        unfold get_rules_for_category
        rw [lookup_dictSet, if_neg hc]
      · intro hno
        rw [hrules] at hno
        have hfilter : rules.filter (fun r => ! ruleFieldIs r "name" n) = rules :=
          List.filter_eq_self.mpr (fun r hr => by
            rw [hno r hr]
            rfl)
        rw [hfilter]
        exact dictSet_lookup_self st cat rules hcat

/-- Witness for C9 (amended) at the freshly seeded store. -/
theorem remove_rule_name_semantics_witness :
    (∀ r ∈ get_rules_for_category initialRuleStore "container",
      (r.item? "name").isSome) ∧
    (∃ st', remove_rule initialRuleStore "container" "root_container" = .ok st' ∧
      get_rules_for_category st' "container" =
        (get_rules_for_category initialRuleStore "container").filter
          (fun r => ! ruleFieldIs r "name" "root_container") ∧
      (∀ c, c ≠ "container" →
        get_rules_for_category st' c =
          get_rules_for_category initialRuleStore c) ∧
      ((∀ r ∈ get_rules_for_category initialRuleStore "container",
          ruleFieldIs r "name" "root_container" = false) →
        st' = initialRuleStore)) :=
  ⟨by decide,
   remove_rule_name_semantics initialRuleStore "container" "root_container"
     (by decide)⟩

/-! ## Claim C8 -/

theorem mapM_serialize_ok (rules : List Rule)
    (h : ∀ r ∈ rules, r.cond = Option.none) :
    rules.mapM serializeRule = .ok (rules.map Rule.fields) := by
  induction rules with
  | nil => rfl
  | cons r rest ih =>
      have hr : serializeRule r = .ok r.fields := by
        unfold serializeRule
        rw [h r (List.mem_cons_self _ _)]
      rw [List.mapM_cons, hr, ih (fun g hg => h g (List.mem_cons_of_mem _ hg))]
      rfl

theorem export_rules_ok (st : RuleStore)
    (h : ∀ crs ∈ st, ∀ r ∈ crs.2, r.cond = Option.none) :
    export_rules st =
      .ok (st.map (fun crs => (crs.1, crs.2.map Rule.fields))) := by
  induction st with
  | nil => rfl
  | cons crs rest ih =>
      obtain ⟨c, rs⟩ := crs
      show List.mapM _ ((c, rs) :: rest) = _
      rw [List.mapM_cons]
      have h1 : rs.mapM serializeRule = .ok (rs.map Rule.fields) :=
        mapM_serialize_ok rs (h (c, rs) (List.mem_cons_self _ _))
      have h2 := ih (fun x hx => h x (List.mem_cons_of_mem _ hx))
      unfold export_rules at h2
      simp only [h1, h2]
      rfl

theorem map_deserialize_fields (rules : List Rule)
    (h : ∀ r ∈ rules, r.cond = Option.none) :
    (rules.map Rule.fields).map deserializeRule = rules := by
  induction rules with
  | nil => rfl
  | cons r rest ih =>
      simp only [List.map_cons]
      rw [ih (fun g hg => h g (List.mem_cons_of_mem _ hg))]
      have hr := h r (List.mem_cons_self _ _)
      cases r with
  | mk f c =>
      cases hr
      rfl

theorem map_ser_deser (st : RuleStore)
    (h : ∀ crs ∈ st, ∀ r ∈ crs.2, r.cond = Option.none) :
    (st.map (fun crs => (crs.1, crs.2.map Rule.fields))).map
      (fun crs => (crs.1, crs.2.map deserializeRule)) = st := by
  induction st with
  | nil => rfl
  | cons crs rest ih =>
      obtain ⟨c, rs⟩ := crs
      simp only [List.map_cons]
      rw [ih (fun x hx => h x (List.mem_cons_of_mem _ hx)),
        map_deserialize_fields rs (h (c, rs) (List.mem_cons_self _ _))]

/-- C8 counterexample: on the freshly seeded default store the round trip
does not even begin: `export_rules` raises (`json.dump` cannot serialize
the callable conditions the default rules carry), so no file is produced
and nothing can be re-imported. -/
theorem export_rules_raises_on_default_store :
    export_rules initialRuleStore = .error "TypeError" := rfl

/-- C8 (amended): the export/import round trip holds only for stores
whose rules carry no executable condition (rules as parsed from files):
for such stores — with distinct category keys, as Python dicts guarantee —
`export_rules` succeeds and re-importing the produced data reproduces the
store exactly (all metadata, nothing lost).  For a store holding any
callable condition, such as the default seeded store, `export_rules`
raises instead. -/
theorem export_import_roundtrip_without_conditions (st : RuleStore)
    (hn : (st.map (fun kv => kv.1)).Nodup)
    (h : ∀ crs ∈ st, ∀ r ∈ crs.2, r.cond = Option.none) :
    ∃ d, export_rules st = .ok d ∧ load_rules_data st d = st := by
  refine ⟨st.map (fun crs => (crs.1, crs.2.map Rule.fields)),
    export_rules_ok st h, ?_⟩
  unfold load_rules_data
  rw [List.map_map]
  have hmap : (st.map ((fun crs => (crs.1, List.map deserializeRule crs.2)) ∘
      (fun crs => (crs.1, crs.2.map Rule.fields)))) = st := by
    have := map_ser_deser st h
    rwa [List.map_map] at this
  rw [hmap]
  exact dictUpdate_self_of_lookup st st (lookup_of_mem_nodup st hn)

/-- Witness for C8 (amended) at a concrete condition-free store. -/
theorem export_import_roundtrip_without_conditions_witness :
    ((([("custom", [condFreeRule])] : RuleStore).map (fun kv => kv.1)).Nodup) ∧
    (∃ d, export_rules [("custom", [condFreeRule])] = .ok d ∧
      load_rules_data [("custom", [condFreeRule])] d =
        [("custom", [condFreeRule])]) :=
  ⟨by decide,
   export_import_roundtrip_without_conditions [("custom", [condFreeRule])]
     (by decide)
     (by
       intro crs hcrs r hr
       rw [List.mem_singleton] at hcrs
       subst hcrs
       rw [List.mem_singleton] at hr
       subst hr
       rfl)⟩

/-! ## Claim C10 -/

/-- C10: from every store, `clear_rules()` with no category reseeds the
defaults — afterwards the store is exactly the default one, its categories
are exactly `api`, `container`, `iac`, and in particular it is not empty —
while `clear_rules(category)` for a specific (truthy) category empties
exactly that category's rule list. -/
theorem clear_rules_reseeds_defaults (st : RuleStore) (c : String)
    (hc : c ≠ "") :
    clear_rules st Option.none = defaultRules ∧
    get_categories (clear_rules st Option.none) = ["api", "container", "iac"] ∧
    clear_rules st Option.none ≠ [] ∧
    get_rules_for_category (clear_rules st (Option.some c)) c = [] := by
  refine ⟨rfl, rfl, ?_, ?_⟩
  · intro hempty
    have : defaultRules = ([] : RuleStore) := hempty
    simp [defaultRules] at this
  · unfold clear_rules
    have ht : pyTruthyStr (Option.some c) = true := by
      simp [pyTruthyStr, hc]
    rw [if_pos ht]
    unfold get_rules_for_category
    rw [show (Option.some c).getD "" = c from rfl, lookup_dictSet]
    simp

/-- Witness for C10 at the freshly seeded store. -/
theorem clear_rules_reseeds_defaults_witness :
    ("api" : String) ≠ "" ∧
    (clear_rules initialRuleStore Option.none = defaultRules ∧
     get_categories (clear_rules initialRuleStore Option.none) =
       ["api", "container", "iac"] ∧
     clear_rules initialRuleStore Option.none ≠ [] ∧
     get_rules_for_category (clear_rules initialRuleStore (Option.some "api"))
       "api" = []) :=
  ⟨by decide, clear_rules_reseeds_defaults initialRuleStore "api" (by decide)⟩

/-! ## Claim C4 -/

theorem applyRulesLoop_ok (rules : List Rule) (results : PyDict JVal)
    (h : ∀ r ∈ rules, hasMeta r) :
    applyRulesLoop rules results = .ok (rules.filterMap (fun r =>
      match evalRuleCond r results with
      | .ok true => Option.some (mkViolation r)
      | _ => Option.none)) := by
  induction rules with
  | nil => rfl
  | cons r rest ih =>
      have hr := h r (List.mem_cons_self _ _)
      rw [hasMeta, Bool.and_eq_true, Bool.and_eq_true] at hr
      obtain ⟨n, hn⟩ := Option.isSome_iff_exists.mp hr.1.1
      obtain ⟨d, hd⟩ := Option.isSome_iff_exists.mp hr.1.2
      obtain ⟨s, hs⟩ := Option.isSome_iff_exists.mp hr.2
      have ihr := ih (fun g hg => h g (List.mem_cons_of_mem _ hg))
      cases hev : evalRuleCond r results with
      | error e =>
          have ht : tryRule r results = .error e := by
            unfold tryRule
            rw [hev]
            rfl
          simp only [applyRulesLoop, ht, hn, List.filterMap_cons, hev, ihr]
      | ok b =>
          cases b with
          | true =>
              have ht : tryRule r results = .ok (Option.some (mkViolation r)) := by
                unfold tryRule
                rw [hev]
                simp only [hn, hd, hs, mkViolation, Option.getD_some]
                rfl
              simp only [applyRulesLoop, ht, List.filterMap_cons, hev, ihr]
              rfl
          | false =>
              have ht : tryRule r results = .ok Option.none := by
                unfold tryRule
                rw [hev]
                rfl
              simp only [applyRulesLoop, ht, List.filterMap_cons, hev, ihr]

/-- C4: for every category and results dict, provided every rule of the
category carries the name/description/severity metadata the code reads,
`apply_rules` never raises because of a rule's condition: a condition that
raises is caught and skipped, the remaining rules are still evaluated, and
the call returns exactly the violations of the rules whose conditions
succeeded and returned true, in order. -/
theorem apply_rules_tolerates_raising_conditions (st : RuleStore)
    (cat : String) (results : PyDict JVal)
    (h : ∀ r ∈ get_rules_for_category st cat, hasMeta r) :
    apply_rules st cat results =
      .ok ((get_rules_for_category st cat).filterMap (fun r =>
        match evalRuleCond r results with
        | .ok true => Option.some (mkViolation r)
        | _ => Option.none)) := by
  cases hcat : st.lookup cat with
  | none =>
      simp only [apply_rules, hcat]
      unfold get_rules_for_category
      rw [hcat]
      rfl
  | some rules =>
      have hrules : get_rules_for_category st cat = rules := by
        unfold get_rules_for_category
        rw [hcat]
        rfl
      simp only [apply_rules, hcat, hrules]
      exact applyRulesLoop_ok rules results (hrules ▸ h)

/-- Witness for C4: the default container rules applied to a results dict
with a root user. -/
theorem apply_rules_tolerates_raising_conditions_witness :
    (∀ r ∈ get_rules_for_category initialRuleStore "container", hasMeta r) ∧
    apply_rules initialRuleStore "container" [("user", JVal.str "root")] =
      .ok ((get_rules_for_category initialRuleStore "container").filterMap
        (fun r => match evalRuleCond r [("user", JVal.str "root")] with
          | .ok true => Option.some (mkViolation r)
          | _ => Option.none)) :=
  ⟨by decide,
   apply_rules_tolerates_raising_conditions initialRuleStore "container"
     [("user", JVal.str "root")] (by decide)⟩

/-! ## Claim C2 -/

/-- C2: whenever a scanner cannot complete — a missing/empty/nonexistent
path for the sbom scanner, sbom generation failing, a missing subscription
or resource group for the azure scanner, or an internal exception during
the check phase — `scan` does not raise (the embedded functions are total)
and returns a result whose findings are exactly one synthetic finding with
status `error` and the scanner's zero sentinel as check id, and whose
summary is `{total: 1, failed: 0, passed: 0, error: 1}`. -/
theorem scan_failure_yields_error_sentinel
    (target : String) (path : Option String) (pathExists : String → Bool)
    (genError : Option String) (checks : Except String (List Finding))
    (sub rg : Option String) (azChecks : Except String (List Finding)) :
    ((pyTruthyStr path = false ∨ pathExists (path.getD "") = false ∨
        genError ≠ Option.none ∨ (∃ e, checks = .error e)) →
      ∃ f, (sbomScan target path pathExists genError checks).findings = [f] ∧
        f.status = Option.some "error" ∧ f.check_id = Option.some "sbom-000" ∧
        (sbomScan target path pathExists genError checks).summary =
          ⟨1, 0, 0, 1⟩) ∧
    ((pyTruthyStr sub = false ∨ pyTruthyStr rg = false ∨
        (∃ e, azChecks = .error e)) →
      ∃ f, (azureScan target sub rg azChecks).findings = [f] ∧
        f.status = Option.some "error" ∧ f.check_id = Option.some "azure-000" ∧
        (azureScan target sub rg azChecks).summary = ⟨1, 0, 0, 1⟩) := by
  constructor
  · intro hfail
    unfold sbomScan
    by_cases hp : (!pyTruthyStr path || !pathExists (path.getD "")) = true
    · rw [if_pos hp]
      exact ⟨_, rfl, rfl, rfl, rfl⟩
    · rw [if_neg hp]
      rcases hfail with hf | hf | hf | ⟨e, he⟩
      · exact absurd (by simp [hf]) hp
      · exact absurd (by simp [hf]) hp
      · cases hg : genError with
        | none => exact absurd hg hf
        | some e2 => exact ⟨_, rfl, rfl, rfl, rfl⟩
      · cases hg : genError with
        | some e2 => exact ⟨_, rfl, rfl, rfl, rfl⟩
        | none =>
            rw [he]
            exact ⟨_, rfl, rfl, rfl, rfl⟩
  · intro hfail
    unfold azureScan
    by_cases hp : (!pyTruthyStr sub || !pyTruthyStr rg) = true
    · rw [if_pos hp]
      exact ⟨_, rfl, rfl, rfl, rfl⟩
    · rw [if_neg hp]
      rcases hfail with hf | hf | ⟨e, he⟩
      · exact absurd (by simp [hf]) hp
      · exact absurd (by simp [hf]) hp
      · rw [he]
        exact ⟨_, rfl, rfl, rfl, rfl⟩

/-- Witness for C2: concrete failing scan calls (no path given; no azure
credentials given). -/
theorem scan_failure_yields_error_sentinel_witness :
    (∃ f, (sbomScan "proj" Option.none (fun _ => false) Option.none
        (.ok [])).findings = [f] ∧
      f.status = Option.some "error" ∧ f.check_id = Option.some "sbom-000" ∧
      (sbomScan "proj" Option.none (fun _ => false) Option.none
        (.ok [])).summary = ⟨1, 0, 0, 1⟩) ∧
    (∃ f, (azureScan "proj" Option.none Option.none (.ok [])).findings = [f] ∧
      f.status = Option.some "error" ∧ f.check_id = Option.some "azure-000" ∧
      (azureScan "proj" Option.none Option.none (.ok [])).summary =
        ⟨1, 0, 0, 1⟩) :=
  ⟨(scan_failure_yields_error_sentinel "proj" Option.none (fun _ => false)
      Option.none (.ok []) Option.none Option.none (.ok [])).1 (Or.inl rfl),
   (scan_failure_yields_error_sentinel "proj" Option.none (fun _ => false)
      Option.none (.ok []) Option.none Option.none (.ok [])).2 (Or.inl rfl)⟩

/-! ## Claim C3 -/

theorem scanMultiCloudLoop_ok (providers : List String)
    (config : PyDict (PyDict JVal)) (acc : PyDict JVal)
    (h : ∀ p ∈ providers, cloudScannerNames.contains p = true) :
    ∃ m, scanMultiCloudLoop providers config acc = .ok m ∧
      ∀ q, m.lookup q = if q ∈ providers
        then Option.some (stubScan q ((config.lookup q).getD []))
        else acc.lookup q := by
  induction providers generalizing acc with
  | nil => exact ⟨acc, rfl, fun q => by simp⟩
  | cons p rest ih =>
      have hp := h p (List.mem_cons_self _ _)
      obtain ⟨m, hm, hq⟩ :=
        ih (dictSet acc p (stubScan p ((config.lookup p).getD [])))
          (fun x hx => h x (List.mem_cons_of_mem _ hx))
      refine ⟨m, ?_, ?_⟩
      · simp only [scanMultiCloudLoop]
        rw [if_pos hp]
        exact hm
      · intro q
        rw [hq q]
        by_cases hqr : q ∈ rest
        · simp [hqr, List.mem_cons]
        · by_cases hqp : q = p
          · subst hqp
            simp [hqr, lookup_dictSet]
          · simp [hqr, hqp, lookup_dictSet, List.mem_cons]

theorem scanMultiCloudLoop_err (providers : List String)
    (config : PyDict (PyDict JVal)) (acc : PyDict JVal)
    (h : ∃ p ∈ providers, cloudScannerNames.contains p = false) :
    ∃ e, scanMultiCloudLoop providers config acc = .error e := by
  induction providers generalizing acc with
  | nil =>
      rcases h with ⟨p, hp, _⟩
      simp at hp
  | cons p rest ih =>
      by_cases hp : cloudScannerNames.contains p = true
      · rcases h with ⟨x, hx, hxf⟩
        rcases List.mem_cons.mp hx with rfl | hx'
        · rw [hp] at hxf
          cases hxf
        · obtain ⟨e, he⟩ :=
            ih (dictSet acc p (stubScan p ((config.lookup p).getD []))) ⟨x, hx', hxf⟩
          refine ⟨e, ?_⟩
          simp only [scanMultiCloudLoop]
          rw [if_pos hp]
          exact he
      · refine ⟨"Unsupported provider: " ++ p, ?_⟩
        simp only [scanMultiCloudLoop]
        rw [if_neg hp]

/-- C3 counterexample: the map's values are not valid ScanResults per the
data model — the aws stub's dict carries the keys provider/config/findings
and none of scanner/target/summary. -/
theorem scan_multi_cloud_values_not_canonical :
    scan_multi_cloud ["aws"] [] = .ok [("aws", stubScan "aws" [])] ∧
    isValidScanResult (stubScan "aws" []) = false :=
  ⟨rfl, rfl⟩

/-- C3 (amended): with no rules and no services, if every provider name is
supported the call returns a map whose keys are exactly the given provider
names, each mapped to the dict returned by that provider's stub scanner on
its config slice (which is not the canonical ScanResult shape); if any
name is unsupported the call raises `ValueError` and no partial result is
returned. -/
theorem scan_multi_cloud_keys_and_failfast (providers : List String)
    (config : PyDict (PyDict JVal)) :
    ((∀ p ∈ providers, cloudScannerNames.contains p = true) →
      ∃ m, scan_multi_cloud providers config = .ok m ∧
        (∀ q, (m.lookup q).isSome = true ↔ q ∈ providers) ∧
        (∀ p ∈ providers,
          m.lookup p = Option.some (stubScan p ((config.lookup p).getD [])))) ∧
    ((∃ p ∈ providers, cloudScannerNames.contains p = false) →
      ∃ e, scan_multi_cloud providers config = .error e) := by
  constructor
  · intro h
    obtain ⟨m, hm, hq⟩ := scanMultiCloudLoop_ok providers config [] h
    refine ⟨m, hm, ?_, ?_⟩
    · intro q
      rw [hq q]
      by_cases hqp : q ∈ providers
      · simp [hqp]
      · simp [hqp, List.lookup]
    · intro p hp
      rw [hq p]
      simp [hp]
  · intro h
    exact scanMultiCloudLoop_err providers config [] h

/-- Witness for C3 at the specification's example inputs. -/
theorem scan_multi_cloud_keys_and_failfast_witness :
    (∃ m, scan_multi_cloud ["aws", "azure"] [] = .ok m ∧
      (∀ q, (m.lookup q).isSome = true ↔ q ∈ ["aws", "azure"]) ∧
      (∀ p ∈ ["aws", "azure"], m.lookup p =
        Option.some (stubScan p ((([] : PyDict (PyDict JVal)).lookup p).getD [])))) ∧
    (∃ e, scan_multi_cloud ["doesnotexist"] [] = .error e) :=
  ⟨(scan_multi_cloud_keys_and_failfast ["aws", "azure"] []).1 (by decide),
   (scan_multi_cloud_keys_and_failfast ["doesnotexist"] []).2
     ⟨"doesnotexist", by decide, by decide⟩⟩

end SecAuditAI
